import Mathlib

/-!
# Travis job execution (pkg/actions/travis/job.go)

A shallow embedding of the per-job state machine of the CodePipeline job worker.
Every call that leaves the process (the two Travis HTTP calls, the two CodePipeline
report calls, the process-level fatal log) is recorded, in program order, in a trace
of `Event`s; what the outside answers is read from a `World`.

`pollForResult` is embedded twice: as the loop over the query results handled before the
timer fires (`pollLoop`), which `Execute` runs on, and in time, as the ticker, the
goroutine, the channel, the timer and the `select` (`runPoll`); `runPoll_refines` relates
the two.
-/

namespace Travis

/-! ## Data model -/

/-- Job configuration of a Travis action (the `Job` struct; the HTTP client handle
carries no data the state machine reads and is left out). -/
structure Job where
  awsJobID : String
  branch : String
  continuationToken : String
  repoOwner : String
  repoName : String
  travisToken : String
deriving DecidableEq, Repr

/-- One element of the `builds` array of a Travis status response (the `build` struct). -/
structure build where
  ID : String
  PreviousState : String
  State : String
deriving DecidableEq, Repr

/-- Keys of the map `travisSuccessTermSet`. -/
def travisSuccessTermSet : List String := ["created", "received", "started", "passed"]

/-- Keys of the map `travisFailureTermSet`. -/
def travisFailureTermSet : List String := ["failed", "errored", "canceled"]

/-- Keys of the map `travisDoneTermSet`. -/
def travisDoneTermSet : List String := ["passed", "failed", "errored", "canceled"]

/-- The helper `contains`: whether `item` is a key of the map `set`. -/
def contains (set : List String) (item : String) : Bool :=
  decide (item ∈ set)

/-- Modelled from the spec: the execution details of a success report (the SDK type
`codepipeline.ExecutionDetails` is not part of the repository); the job only ever sets
the external execution id. -/
structure ExecutionDetails where
  ExternalExecutionId : Option String := none
deriving DecidableEq, Repr

/-- Modelled from the spec: the success report (the SDK type
`codepipeline.PutJobSuccessResultInput` is not part of the repository): it carries the
job id and, when in progress, a continuation token plus an external execution id.
A field that was never set is `none`. -/
structure PutJobSuccessResultInput where
  ContinuationToken : Option String := none
  ExecutionDetails : Option ExecutionDetails := none
  JobId : Option String := none
deriving DecidableEq, Repr

/-- Modelled from the spec: the failure details of a failure report (the SDK type
`codepipeline.FailureDetails` is not part of the repository): an external execution id,
a fixed human-readable message and a failure-type classification. -/
structure FailureDetails where
  ExternalExecutionId : Option String := none
  Message : Option String := none
  Type_ : Option String := none
deriving DecidableEq, Repr

/-- Modelled from the spec: the failure report (the SDK type
`codepipeline.PutJobFailureResultInput` is not part of the repository): job id and
failure details. -/
structure PutJobFailureResultInput where
  FailureDetails : Option FailureDetails := none
  JobId : Option String := none
deriving DecidableEq, Repr

/-- Modelled from the spec: the failure-type classification the job attaches to a
failure report (the SDK constant `codepipeline.FailureTypeJobFailed`). -/
def FailureTypeJobFailed : String := "JobFailed"

/-- What the job does to the outside, in program order. -/
inductive Event where
  /-- The job called `triggerBuild` (POST of a build request). -/
  | triggerBuild
  /-- The job called `getBuildStatus` for this request id (GET of the request). -/
  | getBuildStatus (requestID : String)
  /-- The job called `svc.PutJobSuccessResult` with this input. -/
  | PutJobSuccessResult (input : PutJobSuccessResultInput)
  /-- The job called `svc.PutJobFailureResult` with this input. -/
  | PutJobFailureResult (input : PutJobFailureResultInput)
  /-- The job reached `log.Fatal().Msgf` with this message. -/
  | Fatal (msg : String)
deriving DecidableEq, Repr

/-- What the outside answers during one run of `Execute`.

* `trigger`: the outcome of the build submission: the HTTP exchange and the JSON decoding
  either fail with an error or yield `res.Request.ID`;
* `status k`: the outcome of the HTTP exchange and JSON decoding of the `k`-th status
  query (counted from 0): an error, or the decoded `builds` array;
* `ticks`: how many ticks of the 30-second ticker fire before the 40-minute timer of
  `pollForResult` does; each of them makes the ticker loop issue one status query;
* `delivered`: of these queries, how many have their result handed to the end condition
  before the timer fires (a query still outstanding at that moment is never looked at);
* `putJobSuccessResult`, `putJobFailureResult`: the error the pipeline service returns
  for a report (`none` when it accepts the report). -/
structure World where
  trigger : Except String String
  status : Nat → Except String (List build)
  ticks : Nat
  delivered : Nat
  putJobSuccessResult : PutJobSuccessResultInput → Option String
  putJobFailureResult : PutJobFailureResultInput → Option String

/-! ## Operations -/

/-- The method `triggerBuild`: the request id of the submitted build, or an error. -/
def triggerBuild (_j : Job) (w : World) : Except String String × List Event :=
  (w.trigger, [Event.triggerBuild])

/-- What the `k`-th call of `getBuildStatus` returns: the error of the exchange, the
first element of `builds`, or the error "no builds found" for an empty array. -/
def statusAt (w : World) (k : Nat) : Except String build :=
  match w.status k with
  | .error e => .error e
  | .ok (b :: _) => .ok b
  | .ok [] => .error "no builds found"

/-- The method `getBuildStatus`, called for the `k`-th time. -/
def getBuildStatus (w : World) (k : Nat) (requestID : String) :
    Except String build × List Event :=
  (statusAt w k, [Event.getBuildStatus requestID])

/-- Seconds between two ticks of the polling ticker (`30 * time.Second`). -/
def pollTickSeconds : Nat := 30

/-- Seconds until the timer of `pollForResult` fires (`40 * time.Minute`). -/
def pollTimeoutSeconds : Nat := 40 * 60

/-- Number of ticks that fire before the timer does: those of the world, and never more
than a 30-second ticker can fire in 40 minutes. -/
def firedTicks (w : World) : Nat :=
  min w.ticks (pollTimeoutSeconds / pollTickSeconds)

/-- Number of queries whose result is handled before the timer fires: those the world
delivers in time, among those of the ticks fired. -/
def ticksBeforeDeadline (w : World) : Nat :=
  min w.delivered (firedTicks w)

/-- The ticker loop of `pollForResult`, with `fuel` query results still to be handled
before the timer fires and `k` handled so far. A query error is logged and the loop goes
on; a snapshot for which `f` holds is sent on the channel and returned; with no result
left the timer branch of the `select` returns the timeout error and stops the ticker:
the queries of the ticks fired whose result was not handled were issued for nothing. -/
def pollLoop (w : World) (requestID : String) (f : build → Bool) :
    Nat → Nat → Except String build × List Event
  | 0, k =>
    (.error "timed out waiting for build result",
      List.replicate (firedTicks w - k) (Event.getBuildStatus requestID))
  | fuel + 1, k =>
    match getBuildStatus w k requestID with
    | (.error _, t) =>
      let r := pollLoop w requestID f fuel (k + 1)
      (r.1, t ++ r.2)
    | (.ok b, t) =>
      if f b then (.ok b, t)
      else
        let r := pollLoop w requestID f fuel (k + 1)
        (r.1, t ++ r.2)

/-- The method `pollForResult`. -/
def pollForResult (w : World) (requestID : String) (f : build → Bool) :
    Except String build × List Event :=
  pollLoop w requestID f (ticksBeforeDeadline w) 0

/-- The method `reportSuccess`: the error of the pipeline service, if any. -/
def reportSuccess (j : Job) (w : World) (requestID buildID : String) (inProgress : Bool) :
    Option String × List Event :=
  let input : PutJobSuccessResultInput := {}
  let input : PutJobSuccessResultInput :=
    if inProgress then
      { input with
        ContinuationToken := some requestID
        ExecutionDetails := some { ExternalExecutionId := some buildID } }
    else input
  let input : PutJobSuccessResultInput := { input with JobId := some j.awsJobID }
  (w.putJobSuccessResult input, [Event.PutJobSuccessResult input])

/-- The method `reportFailure`: the error of the pipeline service, if any. -/
def reportFailure (j : Job) (w : World) (buildID : String) : Option String × List Event :=
  let failureDetails : FailureDetails := {}
  let failureDetails := { failureDetails with ExternalExecutionId := some buildID }
  let failureDetails := { failureDetails with Message := some "Travis build failed." }
  let failureDetails := { failureDetails with Type_ := some FailureTypeJobFailed }
  let input : PutJobFailureResultInput := {}
  let input := { input with FailureDetails := some failureDetails }
  let input := { input with JobId := some j.awsJobID }
  (w.putJobFailureResult input, [Event.PutJobFailureResult input])

/-- The method `reportStatus` (no caller in the repository). -/
def reportStatus (j : Job) (w : World) (requestID buildID status : String) :
    Option String × List Event :=
  if contains travisSuccessTermSet status then
    let inProgress := !contains travisDoneTermSet status
    reportSuccess j w requestID buildID inProgress
  else reportFailure j w buildID

/-- The last statement of `Execute`: with an error at hand the process-level fatal log
is reached (`if err != nil { log.Fatal().Msgf(...) }`). -/
def fatalOnError (err : Option String) : List Event :=
  match err with
  | some e => [Event.Fatal ("JOB - TRAVIS: " ++ e)]
  | none => []

/-- The method `Execute`: the trace of the run.

`err` is the variable of `var err error`. Each `x, err := ...` in the initialiser of an
`if` declares a new `err` in the scope of that `if`, and the two `err = ...` of the
resuming branch stand inside such a scope: they assign the inner variable. Nothing
assigns the outer `err`, which the final `if err != nil` reads. On the new path the
result of `reportSuccess` is dropped. -/
def Execute (j : Job) (w : World) : List Event :=
  -- var err error
  let err : Option String := none
  -- if requestID := j.continuationToken; requestID == ""
  let requestID := j.continuationToken
  let t : List Event :=
    if requestID = "" then
      -- if requestID, err := j.triggerBuild(); err == nil
      match triggerBuild j w with
      | (.ok requestID, t1) =>
        -- if b, err := j.pollForResult(requestID, f); err == nil
        match pollForResult w requestID (fun _ => true) with
        | (.ok b, t2) =>
          -- j.reportSuccess(requestID, string(b.ID), true), its result dropped
          t1 ++ t2 ++ (reportSuccess j w requestID b.ID true).2
        | (.error _, t2) => t1 ++ t2
      | (.error _, t1) => t1
    else
      -- if b, err := j.pollForResult(requestID, f); err == nil
      match pollForResult w requestID (fun b => contains travisDoneTermSet b.State) with
      | (.ok b, t2) =>
        if contains travisSuccessTermSet b.State then
          -- err = j.reportSuccess(requestID, string(b.ID), false), the err of this if
          t2 ++ (reportSuccess j w requestID b.ID false).2
        else
          -- err = j.reportFailure(string(b.ID)), the err of this if
          t2 ++ (reportFailure j w b.ID).2
      | (.error _, t2) => t2
  -- if err != nil
  t ++ fatalOnError err

/-- A query result that does not end the poll under the end condition `f`: a query
error, or a snapshot for which `f` is false. -/
def skipped (f : build → Bool) (r : Except String build) : Bool :=
  match r with
  | .error _ => true
  | .ok b => !f b

/-- The end condition of the resuming path: the state is a key of `travisDoneTermSet`. -/
def doneCondition (b : build) : Bool :=
  contains travisDoneTermSet b.State

/-- The end condition of the new path: any snapshot. -/
def anyCondition (_b : build) : Bool :=
  true

/-! ## `pollForResult` in time: the ticker, the goroutine, the timer and the `select`

The clock counts seconds from the creation of the ticker. Tick `k` (`k = 1, 2, ...`)
fires at `pollTickSeconds * k` as long as the ticker has not been stopped; the timer of
`time.After` fires at `pollTimeoutSeconds`. The goroutine started by `pollForResult`
outlives the `select`: whether it goes on issuing queries depends on the ticker
alone. A query is answered within its tick period (the HTTP client of `NewJob` gives
up after 5 seconds). -/

/-- State of one call of `pollForResult` and of the goroutine it starts.

* `stopped`: `ticker.Stop()` has been called;
* `blocked`: the goroutine is stuck in `c <- b` on the full channel;
* `c`: the content of the channel `c` (capacity 1);
* `returned`: what `pollForResult` returned, once its `select` has fired;
* `asked`: the number of status queries issued so far;
* `sent`: per status query, the time in seconds of the tick that triggered it and
  the request id, oldest first. -/
structure PollState where
  stopped : Bool
  blocked : Bool
  c : Option build
  returned : Option (Except String build)
  asked : Nat
  sent : List (Nat × String)

/-- The state on entry to the `select`: ticker running, channel empty, no query yet. -/
def PollState.start : PollState :=
  { stopped := false, blocked := false, c := none, returned := none, asked := 0, sent := [] }

/-- The `select` of `pollForResult`, looked at once. After the function has returned
nothing is left of it. A build on the channel is received, the ticker stopped and the
build returned; otherwise, with the timer fired, the ticker is stopped and the timeout
error returned; otherwise the `select` keeps waiting. -/
def selectStep (s : PollState) (timerFired : Bool) : PollState :=
  match s.returned with
  | some _ => s
  | none =>
    match s.c with
    | some b => { s with c := none, stopped := true, returned := some (.ok b) }
    | none =>
      if timerFired then
        { s with stopped := true,
                 returned := some (.error "timed out waiting for build result") }
      else s

/-- The goroutine takes tick `k` off `ticker.C` and calls `getBuildStatus`. -/
def issueQuery (requestID : String) (k : Nat) (s : PollState) : PollState :=
  { s with asked := s.asked + 1, sent := s.sent ++ [(pollTickSeconds * k, requestID)] }

/-- The rest of the loop body, with the answer to query `i` at hand: an error is logged;
a snapshot for which `f` holds is sent on `c`, and the send blocks for good when the
channel is full. -/
def handleResult (w : World) (f : build → Bool) (i : Nat) (s : PollState) : PollState :=
  match statusAt w i with
  | .error _ => s
  | .ok b =>
    if f b then
      match s.c with
      | none => { s with c := some b }
      | some _ => { s with blocked := true }
    else s

/-- What happens from tick `k` up to the next tick. A stopped ticker sends no tick and a
blocked goroutine takes none: only the `select` is left. Otherwise the goroutine issues
a query. When the timer fires in this period and the answer is not back by then
(the world has `delivered < k`), the `select` takes the timer branch first and the
answer is handled afterwards; otherwise the answer is handled and then the `select`
looks at the channel and at the timer. -/
def tickStep (w : World) (requestID : String) (f : build → Bool) (s : PollState)
    (k : Nat) : PollState :=
  let timerFired : Bool := decide (pollTimeoutSeconds < pollTickSeconds * (k + 1))
  if s.stopped || s.blocked then selectStep s timerFired
  else
    let i := s.asked
    let s := issueQuery requestID k s
    if timerFired && !decide (k ≤ w.delivered) then
      handleResult w f i (selectStep s true)
    else
      selectStep (handleResult w f i s) timerFired

/-- The state after `n` tick periods. -/
def runPoll (w : World) (requestID : String) (f : build → Bool) : Nat → PollState
  | 0 => PollState.start
  | n + 1 => tickStep w requestID f (runPoll w requestID f n) (n + 1)

/-- The query times of a timed-out poll: the ticks at 30, 60, ..., 2400 seconds. -/
def tickTimes (requestID : String) (n : Nat) : List (Nat × String) :=
  (List.range n).map fun k => (pollTickSeconds * (k + 1), requestID)

/-- What every state of the poll satisfies after `n` tick periods: a call that has
returned has stopped the ticker; from the period of the timer on the call has returned;
no query was triggered by a tick later than the timer. -/
def PollInv (n : Nat) (s : PollState) : Prop :=
  (s.returned.isSome = true → s.stopped = true) ∧
  (80 ≤ n → s.returned.isSome = true) ∧
  (∀ q ∈ s.sent, q.1 ≤ pollTimeoutSeconds)

/-! ## Observations on a trace -/

/-- The inputs of the success reports of a trace, in order. -/
def successReports (t : List Event) : List PutJobSuccessResultInput :=
  t.filterMap fun e => match e with
    | .PutJobSuccessResult i => some i
    | _ => none

/-- The inputs of the failure reports of a trace, in order. -/
def failureReports (t : List Event) : List PutJobFailureResultInput :=
  t.filterMap fun e => match e with
    | .PutJobFailureResult i => some i
    | _ => none

/-- The request ids of the status queries of a trace, in order. -/
def statusQueries (t : List Event) : List String :=
  t.filterMap fun e => match e with
    | .getBuildStatus r => some r
    | _ => none

/-- The messages of the fatal log calls of a trace, in order. -/
def fatalCalls (t : List Event) : List String :=
  t.filterMap fun e => match e with
    | .Fatal m => some m
    | _ => none

/-- The success report of a finished job: the job id and nothing else. -/
def finalSuccess (j : Job) : PutJobSuccessResultInput :=
  { JobId := some j.awsJobID }

/-- The success report of a job left in progress. -/
def inProgressSuccess (j : Job) (requestID buildID : String) : PutJobSuccessResultInput :=
  { ContinuationToken := some requestID
    ExecutionDetails := some { ExternalExecutionId := some buildID }
    JobId := some j.awsJobID }

/-- The failure report for a build. -/
def failureOf (j : Job) (buildID : String) : PutJobFailureResultInput :=
  { FailureDetails := some
      { ExternalExecutionId := some buildID
        Message := some "Travis build failed."
        Type_ := some FailureTypeJobFailed }
    JobId := some j.awsJobID }

/-! ## Sample inputs -/

/-- A job that resumes the build request "271828". -/
def resumingJob : Job :=
  { awsJobID := "job-1", branch := "master", continuationToken := "271828",
    repoOwner := "ragurney", repoName := "worker", travisToken := "secret" }

/-- A job invoked for the first time. -/
def newJob : Job :=
  { awsJobID := "job-1", branch := "master", continuationToken := "",
    repoOwner := "ragurney", repoName := "worker", travisToken := "secret" }

/-- A world in which Travis answers the first query with a started build, every later
query with the passed build, and the pipeline accepts every report. -/
def passingWorld : World :=
  { trigger := .ok "271828"
    status := fun k =>
      if k = 0 then .ok [⟨"42", "passed", "started"⟩] else .ok [⟨"42", "passed", "passed"⟩]
    ticks := 80
    delivered := 79
    putJobSuccessResult := fun _ => none
    putJobFailureResult := fun _ => none }

/-- A world in which every status query fails. -/
def deadWorld : World :=
  { trigger := .ok "271828"
    status := fun _ => .error "connection refused"
    ticks := 80
    delivered := 79
    putJobSuccessResult := fun _ => none
    putJobFailureResult := fun _ => none }

/-- A world in which the build has passed and the pipeline service rejects every
report. -/
def rejectingWorld : World :=
  { trigger := .ok "271828"
    status := fun _ => .ok [⟨"42", "passed", "passed"⟩]
    ticks := 80
    delivered := 79
    putJobSuccessResult := fun _ => some "AccessDeniedException"
    putJobFailureResult := fun _ => some "AccessDeniedException" }

/-- A world in which the build has failed and the pipeline service rejects every
report. -/
def rejectingFailedWorld : World :=
  { trigger := .ok "271828"
    status := fun _ => .ok [⟨"42", "passed", "failed"⟩]
    ticks := 80
    delivered := 79
    putJobSuccessResult := fun _ => some "AccessDeniedException"
    putJobFailureResult := fun _ => some "AccessDeniedException" }

/-- A world in which the first query shows the build in a state that is in none of the
three tables, and every later one shows it passed. -/
def queuedWorld : World :=
  { trigger := .ok "271828"
    status := fun k =>
      if k = 0 then .ok [⟨"42", "passed", "queued"⟩] else .ok [⟨"42", "passed", "passed"⟩]
    ticks := 80
    delivered := 79
    putJobSuccessResult := fun _ => none
    putJobFailureResult := fun _ => none }

/-- A world in which the first query shows a started build and every later one shows
the build errored. -/
def erroredWorld : World :=
  { trigger := .ok "271828"
    status := fun k =>
      if k = 0 then .ok [⟨"42", "passed", "started"⟩] else .ok [⟨"42", "passed", "errored"⟩]
    ticks := 80
    delivered := 79
    putJobSuccessResult := fun _ => none
    putJobFailureResult := fun _ => none }

/-- A world in which the first query fails, the second shows a started build, and every
later one shows the build failed. -/
def failingWorld : World :=
  { trigger := .ok "271828"
    status := fun k =>
      if k = 0 then .error "connection reset"
      else if k = 1 then .ok [⟨"42", "passed", "started"⟩]
      else .ok [⟨"42", "passed", "failed"⟩]
    ticks := 80
    delivered := 79
    putJobSuccessResult := fun _ => none
    putJobFailureResult := fun _ => none }

/-- A world in which the build stays in the started state for good. -/
def stuckWorld : World :=
  { trigger := .ok "271828"
    status := fun _ => .ok [⟨"42", "passed", "started"⟩]
    ticks := 80
    delivered := 79
    putJobSuccessResult := fun _ => none
    putJobFailureResult := fun _ => none }

/-- A world in which the build submission fails. -/
def noSubmitWorld : World :=
  { trigger := .error "connection refused"
    status := fun _ => .ok [⟨"42", "passed", "passed"⟩]
    ticks := 80
    delivered := 79
    putJobSuccessResult := fun _ => none
    putJobFailureResult := fun _ => none }

/-- A world in which five queries fail and every later one shows the build passed. -/
def fiveErrorsWorld : World :=
  { trigger := .ok "271828"
    status := fun k =>
      if k < 5 then .error "connection reset" else .ok [⟨"42", "failed", "passed"⟩]
    ticks := 80
    delivered := 79
    putJobSuccessResult := fun _ => none
    putJobFailureResult := fun _ => none }

/-! ## The polling loop -/

theorem pollLoop_zero (w : World) (rid : String) (f : build → Bool) (k : Nat) :
    pollLoop w rid f 0 k =
      (.error "timed out waiting for build result",
        List.replicate (firedTicks w - k) (Event.getBuildStatus rid)) := by
  rw [pollLoop]

theorem pollLoop_skip (w : World) (rid : String) (f : build → Bool) (fuel k : Nat)
    (h : skipped f (statusAt w k) = true) :
    pollLoop w rid f (fuel + 1) k =
      ((pollLoop w rid f fuel (k + 1)).1,
        Event.getBuildStatus rid :: (pollLoop w rid f fuel (k + 1)).2) := by
  rw [pollLoop]
  cases hs : statusAt w k with
  | error e => simp [getBuildStatus, hs]
  | ok b =>
    have hf : f b = false := by simpa [skipped, hs] using h
    simp [getBuildStatus, hs, hf]

theorem pollLoop_hit (w : World) (rid : String) (f : build → Bool) (fuel k : Nat)
    (b : build) (h : statusAt w k = .ok b) (hf : f b = true) :
    pollLoop w rid f (fuel + 1) k = (.ok b, [Event.getBuildStatus rid]) := by
  rw [pollLoop]
  simp [getBuildStatus, h, hf]

theorem pollLoop_found (w : World) (rid : String) (f : build → Bool) (b : build) :
    ∀ (n fuel k : Nat), n < fuel →
      (∀ i, i < n → skipped f (statusAt w (k + i)) = true) →
      statusAt w (k + n) = .ok b → f b = true →
      pollLoop w rid f fuel k = (.ok b, List.replicate (n + 1) (Event.getBuildStatus rid)) := by
  intro n
  induction n with
  | zero =>
    intro fuel k hlt _ hb hf
    obtain ⟨fuel, rfl⟩ : ∃ m, fuel = m + 1 := ⟨fuel - 1, by omega⟩
    simpa using pollLoop_hit w rid f fuel k b (by simpa using hb) hf
  | succ n ih =>
    intro fuel k hlt hpre hb hf
    obtain ⟨fuel, rfl⟩ : ∃ m, fuel = m + 1 := ⟨fuel - 1, by omega⟩
    have h0 : skipped f (statusAt w k) = true := by simpa using hpre 0 (by omega)
    have hrec := ih fuel (k + 1) (by omega)
      (fun i hi => by have := hpre (i + 1) (by omega); rwa [show k + 1 + i = k + (i + 1) by omega])
      (by rwa [show k + 1 + n = k + (n + 1) by omega]) hf
    rw [pollLoop_skip w rid f fuel k h0, hrec]
    simp [List.replicate_succ]

theorem pollLoop_timeout (w : World) (rid : String) (f : build → Bool) :
    ∀ (fuel k : Nat), (∀ i, i < fuel → skipped f (statusAt w (k + i)) = true) →
      pollLoop w rid f fuel k =
        (.error "timed out waiting for build result",
          List.replicate (fuel + (firedTicks w - (k + fuel))) (Event.getBuildStatus rid)) := by
  intro fuel
  induction fuel with
  | zero => intro k _; simp [pollLoop_zero]
  | succ fuel ih =>
    intro k hpre
    have h0 : skipped f (statusAt w k) = true := by simpa using hpre 0 (by omega)
    have hrec := ih (k + 1)
      (fun i hi => by have := hpre (i + 1) (by omega); rwa [show k + 1 + i = k + (i + 1) by omega])
    rw [pollLoop_skip w rid f fuel k h0, hrec]
    have e : fuel + 1 + (firedTicks w - (k + (fuel + 1))) =
        (fuel + (firedTicks w - (k + 1 + fuel))) + 1 := by omega
    rw [e, List.replicate_succ]

theorem pollForResult_found (w : World) (rid : String) (f : build → Bool) (n : Nat) (b : build)
    (hn : n < ticksBeforeDeadline w)
    (hpre : ∀ i, i < n → skipped f (statusAt w i) = true)
    (hb : statusAt w n = .ok b) (hf : f b = true) :
    pollForResult w rid f = (.ok b, List.replicate (n + 1) (Event.getBuildStatus rid)) := by
  unfold pollForResult
  exact pollLoop_found w rid f b n _ 0 hn (by simpa using hpre) (by simpa using hb) hf

theorem ticksBeforeDeadline_le (w : World) : ticksBeforeDeadline w ≤ firedTicks w := by
  unfold ticksBeforeDeadline
  exact Nat.min_le_right _ _

theorem firedTicks_le (w : World) : firedTicks w ≤ pollTimeoutSeconds / pollTickSeconds := by
  unfold firedTicks
  exact Nat.min_le_right _ _

theorem pollForResult_timeout (w : World) (rid : String) (f : build → Bool)
    (hpre : ∀ i, i < ticksBeforeDeadline w → skipped f (statusAt w i) = true) :
    pollForResult w rid f =
      (.error "timed out waiting for build result",
        List.replicate (firedTicks w) (Event.getBuildStatus rid)) := by
  unfold pollForResult
  rw [pollLoop_timeout w rid f _ 0 (by simpa using hpre)]
  have h := ticksBeforeDeadline_le w
  have e : ticksBeforeDeadline w + (firedTicks w - (0 + ticksBeforeDeadline w)) =
      firedTicks w := by omega
  rw [e]

/-! ## Observations on the traces of the loop -/

theorem successReports_append (s t : List Event) :
    successReports (s ++ t) = successReports s ++ successReports t := by
  simp [successReports]

theorem failureReports_append (s t : List Event) :
    failureReports (s ++ t) = failureReports s ++ failureReports t := by
  simp [failureReports]

theorem statusQueries_append (s t : List Event) :
    statusQueries (s ++ t) = statusQueries s ++ statusQueries t := by
  simp [statusQueries]

theorem fatalCalls_append (s t : List Event) :
    fatalCalls (s ++ t) = fatalCalls s ++ fatalCalls t := by
  simp [fatalCalls]

theorem successReports_queries (n : Nat) (rid : String) :
    successReports (List.replicate n (Event.getBuildStatus rid)) = [] := by
  induction n with
  | zero => rfl
  | succ n _ => simp [List.replicate_succ, successReports]

theorem failureReports_queries (n : Nat) (rid : String) :
    failureReports (List.replicate n (Event.getBuildStatus rid)) = [] := by
  induction n with
  | zero => rfl
  | succ n _ => simp [List.replicate_succ, failureReports]

theorem fatalCalls_queries (n : Nat) (rid : String) :
    fatalCalls (List.replicate n (Event.getBuildStatus rid)) = [] := by
  induction n with
  | zero => rfl
  | succ n _ => simp [List.replicate_succ, fatalCalls]

theorem statusQueries_queries (n : Nat) (rid : String) :
    statusQueries (List.replicate n (Event.getBuildStatus rid)) = List.replicate n rid := by
  induction n with
  | zero => rfl
  | succ n _ => simp [List.replicate_succ, statusQueries]

/-! ## The two paths of `Execute` -/

theorem contains_iff (set : List String) (item : String) :
    contains set item = true ↔ item ∈ set := by
  simp [contains]

theorem skipped_done (r : Except String build)
    (h : ∀ b, r = .ok b → contains travisDoneTermSet b.State = false) :
    skipped doneCondition r = true := by
  cases r with
  | error e => rfl
  | ok b => simp [skipped, doneCondition, h b rfl]

theorem skipped_any (r : Except String build) (h : ∀ b, r ≠ .ok b) :
    skipped anyCondition r = true := by
  cases r with
  | error e => rfl
  | ok b => exact absurd rfl (h b)

theorem Execute_resuming (j : Job) (w : World) (htok : j.continuationToken ≠ "") :
    Execute j w =
      match pollForResult w j.continuationToken doneCondition with
      | (.ok b, t2) =>
        if contains travisSuccessTermSet b.State then
          t2 ++ (reportSuccess j w j.continuationToken b.ID false).2
        else
          t2 ++ (reportFailure j w b.ID).2
      | (.error _, t2) => t2 := by
  simp only [Execute, htok, fatalOnError, if_false, List.append_nil]
  rfl

theorem Execute_new (j : Job) (w : World) (htok : j.continuationToken = "") :
    Execute j w =
      match w.trigger with
      | .ok requestID =>
        match pollForResult w requestID anyCondition with
        | (.ok b, t2) =>
          [Event.triggerBuild] ++ t2 ++ (reportSuccess j w requestID b.ID true).2
        | (.error _, t2) => [Event.triggerBuild] ++ t2
      | .error _ => [Event.triggerBuild] := by
  simp only [Execute, htok, fatalOnError, if_true, List.append_nil, triggerBuild]
  cases w.trigger <;> rfl

/-- The trace of a resuming run whose first terminal snapshot is `b`, the result of
query `n`. -/
theorem Execute_resuming_found (j : Job) (w : World) (n : Nat) (b : build)
    (htok : j.continuationToken ≠ "") (hn : n < ticksBeforeDeadline w)
    (hpre : ∀ i, i < n → ∀ c, statusAt w i = .ok c → contains travisDoneTermSet c.State = false)
    (hb : statusAt w n = .ok b) (hdone : contains travisDoneTermSet b.State = true) :
    Execute j w =
      List.replicate (n + 1) (Event.getBuildStatus j.continuationToken) ++
        (if contains travisSuccessTermSet b.State then
          [Event.PutJobSuccessResult (finalSuccess j)]
        else [Event.PutJobFailureResult (failureOf j b.ID)]) := by
  rw [Execute_resuming j w htok,
    pollForResult_found w j.continuationToken doneCondition n b hn
      (fun i hi => skipped_done _ (hpre i hi)) hb hdone]
  by_cases hs : contains travisSuccessTermSet b.State = true
  · simp [hs, reportSuccess, finalSuccess]
  · simp [hs, reportFailure, failureOf]

/-- The trace of a resuming run in which no terminal snapshot arrives in time. -/
theorem Execute_resuming_timeout (j : Job) (w : World) (htok : j.continuationToken ≠ "")
    (hpre : ∀ i, i < ticksBeforeDeadline w →
      ∀ c, statusAt w i = .ok c → contains travisDoneTermSet c.State = false) :
    Execute j w =
      List.replicate (firedTicks w) (Event.getBuildStatus j.continuationToken) := by
  rw [Execute_resuming j w htok,
    pollForResult_timeout w j.continuationToken doneCondition
      (fun i hi => skipped_done _ (hpre i hi))]

/-- The trace of a new run whose submission yields `r` and whose first snapshot is `b`,
the result of query `n`. -/
theorem Execute_new_found (j : Job) (w : World) (r : String) (n : Nat) (b : build)
    (htok : j.continuationToken = "") (htrig : w.trigger = .ok r)
    (hn : n < ticksBeforeDeadline w)
    (hpre : ∀ i, i < n → ∀ c, statusAt w i ≠ .ok c)
    (hb : statusAt w n = .ok b) :
    Execute j w =
      Event.triggerBuild :: List.replicate (n + 1) (Event.getBuildStatus r) ++
        [Event.PutJobSuccessResult (inProgressSuccess j r b.ID)] := by
  rw [Execute_new j w htok, htrig]
  simp only []
  rw [pollForResult_found w r anyCondition n b hn
      (fun i hi => skipped_any _ (hpre i hi)) hb rfl]
  simp [reportSuccess, inProgressSuccess]

/-- The trace of a new run whose submission yields `r` and in which no snapshot arrives
in time. -/
theorem Execute_new_timeout (j : Job) (w : World) (r : String)
    (htok : j.continuationToken = "") (htrig : w.trigger = .ok r)
    (hpre : ∀ i, i < ticksBeforeDeadline w → ∀ c, statusAt w i ≠ .ok c) :
    Execute j w =
      Event.triggerBuild :: List.replicate (firedTicks w) (Event.getBuildStatus r) := by
  rw [Execute_new j w htok, htrig]
  simp only []
  rw [pollForResult_timeout w r anyCondition (fun i hi => skipped_any _ (hpre i hi))]
  simp

/-- The trace of the polling loop holds status queries only. -/
theorem pollLoop_trace (w : World) (rid : String) (f : build → Bool) :
    ∀ (fuel k : Nat), ∃ m,
      (pollLoop w rid f fuel k).2 = List.replicate m (Event.getBuildStatus rid) := by
  intro fuel
  induction fuel with
  | zero => intro k; exact ⟨_, by rw [pollLoop_zero]⟩
  | succ fuel ih =>
    intro k
    obtain ⟨m, hm⟩ := ih (k + 1)
    by_cases h : skipped f (statusAt w k) = true
    · exact ⟨m + 1, by rw [pollLoop_skip w rid f fuel k h, hm, List.replicate_succ]⟩
    · cases hs : statusAt w k with
      | error e => simp [skipped, hs] at h
      | ok b =>
        have hf : f b = true := by simpa [skipped, hs] using h
        exact ⟨1, by rw [pollLoop_hit w rid f fuel k b hs hf]; rfl⟩

/-- No run reaches the fatal log call: the variable read by the last statement of
`Execute` is never assigned. -/
theorem Execute_never_fatal (j : Job) (w : World) : fatalCalls (Execute j w) = [] := by
  by_cases htok : j.continuationToken = ""
  · rw [Execute_new j w htok]
    cases w.trigger with
    | error e => rfl
    | ok r =>
      simp only []
      obtain ⟨m, hm⟩ := pollLoop_trace w r anyCondition (ticksBeforeDeadline w) 0
      change (pollForResult w r anyCondition).2 = _ at hm
      rcases hp : pollForResult w r anyCondition with ⟨res, t⟩
      rw [hp] at hm
      simp only at hm
      subst hm
      cases res <;>
        simp [fatalCalls_append, fatalCalls_queries, fatalCalls, reportSuccess]
  · rw [Execute_resuming j w htok]
    obtain ⟨m, hm⟩ :=
      pollLoop_trace w j.continuationToken doneCondition (ticksBeforeDeadline w) 0
    change (pollForResult w j.continuationToken doneCondition).2 = _ at hm
    rcases hp : pollForResult w j.continuationToken doneCondition with ⟨res, t⟩
    rw [hp] at hm
    simp only at hm
    subst hm
    cases res with
    | error e => simp [fatalCalls_queries]
    | ok b =>
      by_cases hs : contains travisSuccessTermSet b.State = true <;>
        simp [hs, fatalCalls_append, fatalCalls_queries, fatalCalls, reportSuccess,
          reportFailure]

/-- The unused `reportStatus` sends a failure report for every state that is not
success-compatible. -/
theorem reportStatus_not_success (j : Job) (w : World) (rid bid status : String)
    (h : contains travisSuccessTermSet status = false) :
    (reportStatus j w rid bid status).2 = [Event.PutJobFailureResult (failureOf j bid)] := by
  simp [reportStatus, h, reportFailure, failureOf]

/-! ## The poll in time -/

theorem timerFired_iff (k : Nat) :
    pollTimeoutSeconds < pollTickSeconds * (k + 1) ↔ 80 ≤ k := by
  unfold pollTimeoutSeconds pollTickSeconds
  omega

theorem selectStep_sent (s : PollState) (t : Bool) : (selectStep s t).sent = s.sent := by
  unfold selectStep
  split
  · rfl
  · split
    · rfl
    · split <;> rfl

theorem selectStep_asked (s : PollState) (t : Bool) : (selectStep s t).asked = s.asked := by
  unfold selectStep
  split
  · rfl
  · split
    · rfl
    · split <;> rfl

theorem selectStep_returned (s : PollState) (h : s.returned.isSome = true) (t : Bool) :
    selectStep s t = s := by
  unfold selectStep
  split
  · rfl
  · next h0 => rw [h0] at h; cases h

theorem selectStep_timer (s : PollState) : (selectStep s true).returned.isSome = true := by
  unfold selectStep
  split
  · next h0 => rw [h0]; rfl
  · split
    · rfl
    · rfl

theorem selectStep_stopped (s : PollState) (t : Bool)
    (h : s.returned.isSome = true → s.stopped = true) :
    (selectStep s t).returned.isSome = true → (selectStep s t).stopped = true := by
  unfold selectStep
  split
  · exact h
  · next h0 =>
    split
    · intro _; rfl
    · split
      · intro _; rfl
      · intro h1; rw [h0] at h1; cases h1

theorem handleResult_returned (w : World) (f : build → Bool) (i : Nat) (s : PollState) :
    (handleResult w f i s).returned = s.returned := by
  unfold handleResult
  split
  · rfl
  · split
    · split <;> rfl
    · rfl

theorem handleResult_stopped (w : World) (f : build → Bool) (i : Nat) (s : PollState) :
    (handleResult w f i s).stopped = s.stopped := by
  unfold handleResult
  split
  · rfl
  · split
    · split <;> rfl
    · rfl

theorem handleResult_sent (w : World) (f : build → Bool) (i : Nat) (s : PollState) :
    (handleResult w f i s).sent = s.sent := by
  unfold handleResult
  split
  · rfl
  · split
    · split <;> rfl
    · rfl


theorem tickStep_inv (w : World) (rid : String) (f : build → Bool) (n : Nat) (s : PollState)
    (h : PollInv n s) : PollInv (n + 1) (tickStep w rid f s (n + 1)) := by
  unfold PollInv at h ⊢
  obtain ⟨h1, h2, h3⟩ := h
  unfold tickStep
  simp only []
  by_cases hs : (s.stopped || s.blocked) = true
  · rw [if_pos hs]
    refine ⟨selectStep_stopped s _ h1, ?_, ?_⟩
    · intro hn
      have ht : decide (pollTimeoutSeconds < pollTickSeconds * (n + 1 + 1)) = true :=
        decide_eq_true ((timerFired_iff (n + 1)).2 hn)
      rw [ht]
      exact selectStep_timer s
    · rw [selectStep_sent]; exact h3
  · rw [if_neg hs]
    have hns : s.stopped = false := by
      cases hst : s.stopped
      · rfl
      · simp [hst] at hs
    have hnr : s.returned.isSome = false := by
      cases hr : s.returned.isSome
      · rfl
      · rw [h1 hr] at hns; cases hns
    have hn : n + 1 ≤ 80 := by
      by_contra hc
      have := h2 (by omega)
      rw [this] at hnr; cases hnr
    have hsent : ∀ q ∈ (issueQuery rid (n + 1) s).sent, q.1 ≤ pollTimeoutSeconds := by
      intro q hq
      simp only [issueQuery, List.mem_append, List.mem_singleton] at hq
      rcases hq with hq | hq
      · exact h3 q hq
      · rw [hq]
        show pollTickSeconds * (n + 1) ≤ pollTimeoutSeconds
        unfold pollTimeoutSeconds pollTickSeconds
        omega
    have hq1 : (issueQuery rid (n + 1) s).returned.isSome = true →
        (issueQuery rid (n + 1) s).stopped = true := fun hr => by
      have : s.returned.isSome = true := hr
      rw [this] at hnr; cases hnr
    split
    · next hc =>
      refine ⟨?_, ?_, ?_⟩
      · rw [handleResult_returned, handleResult_stopped]
        exact selectStep_stopped _ _ hq1
      · intro _
        rw [handleResult_returned]
        exact selectStep_timer _
      · rw [handleResult_sent, selectStep_sent]; exact hsent
    · refine ⟨?_, ?_, ?_⟩
      · apply selectStep_stopped
        rw [handleResult_returned, handleResult_stopped]
        exact hq1
      · intro hn'
        have ht : decide (pollTimeoutSeconds < pollTickSeconds * (n + 1 + 1)) = true :=
          decide_eq_true ((timerFired_iff (n + 1)).2 hn')
        rw [ht]
        exact selectStep_timer _
      · rw [selectStep_sent, handleResult_sent]; exact hsent

theorem runPoll_inv (w : World) (rid : String) (f : build → Bool) :
    ∀ n, PollInv n (runPoll w rid f n) := by
  intro n
  induction n with
  | zero =>
    unfold PollInv
    refine ⟨?_, ?_, ?_⟩
    · intro h; cases h
    · intro h; omega
    · intro q hq; cases hq
  | succ n ih => exact tickStep_inv w rid f n _ ih

theorem handleResult_skipped (w : World) (f : build → Bool) (i : Nat) (s : PollState)
    (h : skipped f (statusAt w i) = true) : handleResult w f i s = s := by
  unfold handleResult
  cases hs : statusAt w i with
  | error e => rfl
  | ok b =>
    have hf : f b = false := by simpa [skipped, hs] using h
    simp [hf]

theorem tickTimes_succ (rid : String) (n : Nat) :
    tickTimes rid (n + 1) = tickTimes rid n ++ [(pollTickSeconds * (n + 1), rid)] := by
  simp [tickTimes, List.range_succ]

theorem tickTimes_events (rid : String) (n : Nat) :
    (tickTimes rid n).map (fun q => Event.getBuildStatus q.2) =
      List.replicate n (Event.getBuildStatus rid) := by
  induction n with
  | zero => rfl
  | succ n ih =>
    rw [tickTimes_succ, List.map_append, ih, List.replicate_succ']
    rfl

/-- The poll while no answer ends it and the timer has not fired: one query per tick. -/
theorem runPoll_polling (w : World) (rid : String) (f : build → Bool) :
    ∀ n, n ≤ 79 → (∀ i, i < n → skipped f (statusAt w i) = true) →
      runPoll w rid f n =
        { stopped := false, blocked := false, c := none, returned := none, asked := n,
          sent := tickTimes rid n } := by
  intro n
  induction n with
  | zero => intro _ _; rfl
  | succ n ih =>
    intro hn hpre
    have ht : decide (pollTimeoutSeconds < pollTickSeconds * (n + 1 + 1)) = false :=
      decide_eq_false (fun h => by have := (timerFired_iff (n + 1)).1 h; omega)
    rw [runPoll, ih (by omega) (fun i hi => hpre i (by omega))]
    simp only [tickStep, ht, issueQuery, Bool.or_self, Bool.false_and, if_false,
      Bool.false_eq_true]
    rw [handleResult_skipped w f n _ (hpre n (by omega))]
    simp [selectStep, tickTimes_succ]

/-- The poll whose query `n` is the first to bring a snapshot satisfying `f`, in time. -/
theorem runPoll_found (w : World) (rid : String) (f : build → Bool) (n : Nat) (b : build)
    (hn : n < 80) (hd : n < w.delivered)
    (hpre : ∀ i, i < n → skipped f (statusAt w i) = true)
    (hb : statusAt w n = .ok b) (hf : f b = true) :
    runPoll w rid f (n + 1) =
      { stopped := true, blocked := false, c := none, returned := some (.ok b),
        asked := n + 1, sent := tickTimes rid (n + 1) } := by
  have hd2 : decide (n + 1 ≤ w.delivered) = true := decide_eq_true hd
  rw [runPoll, runPoll_polling w rid f n (by omega) hpre]
  simp only [tickStep, issueQuery, Bool.or_self, hd2, Bool.not_true, Bool.and_false,
    if_false, Bool.false_eq_true]
  simp [handleResult, hb, hf, selectStep, tickTimes_succ]

/-- The poll in which no answer handled before the timer ends it. -/
theorem runPoll_timeout (w : World) (rid : String) (f : build → Bool)
    (hpre : ∀ i, i < 79 → skipped f (statusAt w i) = true)
    (hlast : 80 ≤ w.delivered → skipped f (statusAt w 79) = true) :
    (runPoll w rid f 80).returned = some (.error "timed out waiting for build result") ∧
      (runPoll w rid f 80).stopped = true ∧
      (runPoll w rid f 80).sent = tickTimes rid 80 := by
  have ht : decide (pollTimeoutSeconds < pollTickSeconds * (79 + 1 + 1)) = true :=
    decide_eq_true ((timerFired_iff 80).2 (le_refl _))
  rw [runPoll, runPoll_polling w rid f 79 (le_refl _) hpre]
  simp only [tickStep, issueQuery, Bool.or_self, ht, Bool.true_and, if_false,
    Bool.false_eq_true]
  by_cases hd : 79 + 1 ≤ w.delivered
  · have hd2 : decide (79 + 1 ≤ w.delivered) = true := decide_eq_true hd
    simp only [hd2, Bool.not_true, if_false, Bool.false_eq_true]
    rw [handleResult_skipped w f 79 _ (hlast hd)]
    simp [selectStep, tickTimes_succ]
  · have hd2 : decide (79 + 1 ≤ w.delivered) = false := decide_eq_false hd
    simp only [hd2, Bool.not_false, if_true]
    rw [handleResult_returned, handleResult_stopped, handleResult_sent]
    simp [selectStep, tickTimes_succ]

theorem tickStep_returned (w : World) (rid : String) (f : build → Bool) (s : PollState)
    (k : Nat) (h1 : s.stopped = true) (h2 : s.returned.isSome = true) :
    tickStep w rid f s k = s := by
  unfold tickStep
  simp only [h1, Bool.true_or, if_true]
  exact selectStep_returned s h2 _

/-- Once `pollForResult` has returned and stopped the ticker nothing happens any more. -/
theorem runPoll_stable (w : World) (rid : String) (f : build → Bool) (m : Nat)
    (h1 : (runPoll w rid f m).stopped = true)
    (h2 : (runPoll w rid f m).returned.isSome = true) :
    ∀ n, m ≤ n → runPoll w rid f n = runPoll w rid f m := by
  intro n hn
  induction n with
  | zero =>
    have : m = 0 := by omega
    rw [this]
  | succ n ih =>
    by_cases hm : m = n + 1
    · rw [hm]
    · have e := ih (by omega)
      rw [runPoll, e]
      exact tickStep_returned w rid f _ _ h1 h2

theorem first_satisfying (w : World) (f : build → Bool) :
    ∀ m, (∀ i, i < m → skipped f (statusAt w i) = true) ∨
      ∃ n b, n < m ∧ (∀ i, i < n → skipped f (statusAt w i) = true) ∧
        statusAt w n = .ok b ∧ f b = true := by
  intro m
  induction m with
  | zero => exact Or.inl (fun i hi => absurd hi (Nat.not_lt_zero i))
  | succ m ih =>
    rcases ih with h | ⟨n, b, hn, hpre, hb, hf⟩
    · by_cases hm : skipped f (statusAt w m) = true
      · left
        intro i hi
        by_cases him : i = m
        · rw [him]; exact hm
        · exact h i (by omega)
      · right
        cases hs : statusAt w m with
        | error e => simp [skipped, hs] at hm
        | ok b =>
          have hf : f b = true := by simpa [skipped, hs] using hm
          exact ⟨m, b, by omega, h, hs, hf⟩
    · exact Or.inr ⟨n, b, by omega, hpre, hb, hf⟩

/-- On a world in which the ticker fires on schedule (`80 ≤ ticks`) and every query but
possibly the one of the last tick is answered before the timer (`79 ≤ delivered`), the
poll in time, looked at after the timer, has returned what `pollForResult` returns, has
issued the status queries of its trace and has stopped the ticker. -/
theorem runPoll_refines (w : World) (rid : String) (f : build → Bool)
    (hr1 : 80 ≤ w.ticks) (hr2 : 79 ≤ w.delivered) (n : Nat) (hn : 80 ≤ n) :
    (runPoll w rid f n).returned = some (pollForResult w rid f).1 ∧
      (runPoll w rid f n).sent.map (fun q => Event.getBuildStatus q.2) =
        (pollForResult w rid f).2 ∧
      (runPoll w rid f n).stopped = true := by
  have hfired : firedTicks w = 80 := by
    unfold firedTicks pollTimeoutSeconds pollTickSeconds
    omega
  have htbd : ticksBeforeDeadline w = min w.delivered 80 := by
    unfold ticksBeforeDeadline
    rw [hfired]
  rcases first_satisfying w f (ticksBeforeDeadline w) with h | ⟨k, b, hk, hpre, hb, hf⟩
  · rw [pollForResult_timeout w rid f h, hfired]
    obtain ⟨e1, e2, e3⟩ := runPoll_timeout w rid f
      (fun i hi => h i (by rw [htbd]; omega))
      (fun hd => h 79 (by rw [htbd]; omega))
    have hst := runPoll_stable w rid f 80 e2 (by rw [e1]; rfl) n hn
    rw [hst, e1, e2, e3, tickTimes_events]
    exact ⟨rfl, rfl, rfl⟩
  · rw [pollForResult_found w rid f k b hk hpre hb hf]
    have hk2 : k < 80 ∧ k < w.delivered := by rw [htbd] at hk; omega
    have e := runPoll_found w rid f k b hk2.1 hk2.2 hpre hb hf
    have hst := runPoll_stable w rid f (k + 1) (by rw [e]) (by rw [e]; rfl) n (by omega)
    rw [hst, e]
    exact ⟨rfl, tickTimes_events rid (k + 1), rfl⟩

/-! ## The claims -/

/-- C1. Resuming path, success: for a job with a non-empty continuation token, when the
query results delivered before the deadline are query errors and snapshots with
non-terminal states followed by a snapshot `b` whose state is terminal and
success-compatible, the run sends exactly one success report, for the job id of the
descriptor, with no continuation token and no execution details, and sends no failure
report; such a state is "passed". -/
theorem Execute_resuming_success (j : Job) (w : World) (n : Nat) (b : build)
    (htok : j.continuationToken ≠ "") (hn : n < ticksBeforeDeadline w)
    (hpre : ∀ i, i < n → ∀ c, statusAt w i = .ok c → contains travisDoneTermSet c.State = false)
    (hb : statusAt w n = .ok b) (hdone : contains travisDoneTermSet b.State = true)
    (hsucc : contains travisSuccessTermSet b.State = true) :
    successReports (Execute j w) =
        [{ JobId := some j.awsJobID, ContinuationToken := none, ExecutionDetails := none }] ∧
      failureReports (Execute j w) = [] ∧ b.State = "passed" := by
  rw [Execute_resuming_found j w n b htok hn hpre hb hdone]
  refine ⟨?_, ?_, ?_⟩
  · simp [hsucc, successReports_append, successReports_queries, successReports, finalSuccess]
  · simp [hsucc, failureReports_append, failureReports_queries, failureReports]
  · have h1 := (contains_iff _ _).1 hdone
    have h2 := (contains_iff _ _).1 hsucc
    simp only [travisDoneTermSet, travisSuccessTermSet, List.mem_cons, List.mem_singleton,
      List.mem_nil_iff, or_false] at h1 h2
    rcases h1 with h | h | h | h
    · exact h
    all_goals (rw [h] at h2; exact absurd h2 (by decide))

theorem Execute_resuming_success_witness :
    successReports (Execute resumingJob passingWorld) =
        [{ JobId := some "job-1", ContinuationToken := none, ExecutionDetails := none }] ∧
      failureReports (Execute resumingJob passingWorld) = [] ∧
      (⟨"42", "passed", "passed"⟩ : build).State = "passed" :=
  Execute_resuming_success resumingJob passingWorld 1 ⟨"42", "passed", "passed"⟩
    (by decide) (by decide)
    (fun i hi c hc => by
      obtain rfl : i = 0 := by omega
      have : c = ⟨"42", "passed", "started"⟩ := by
        simpa [statusAt, passingWorld] using hc.symm
      subst this
      decide)
    (by simp [statusAt, passingWorld]) (by decide) (by decide)

/-- C2. Resuming path, failure: for a job with a non-empty continuation token, when the
first terminal snapshot `b` among the query results delivered before the deadline has a
failure state ("failed", "errored" or "canceled"), the run sends exactly one failure
report, for the job id of the descriptor and with the build id of `b` as external
execution id, and sends no success report. -/
theorem Execute_resuming_failure (j : Job) (w : World) (n : Nat) (b : build)
    (htok : j.continuationToken ≠ "") (hn : n < ticksBeforeDeadline w)
    (hpre : ∀ i, i < n → ∀ c, statusAt w i = .ok c → contains travisDoneTermSet c.State = false)
    (hb : statusAt w n = .ok b) (hfail : contains travisFailureTermSet b.State = true) :
    failureReports (Execute j w) =
        [{ JobId := some j.awsJobID,
           FailureDetails := some
             { ExternalExecutionId := some b.ID,
               Message := some "Travis build failed.",
               Type_ := some FailureTypeJobFailed } }] ∧
      successReports (Execute j w) = [] := by
  have h1 := (contains_iff _ _).1 hfail
  simp only [travisFailureTermSet, List.mem_cons, List.mem_singleton, List.mem_nil_iff,
    or_false] at h1
  have hdone : contains travisDoneTermSet b.State = true := by
    rcases h1 with h | h | h <;> rw [h] <;> decide
  have hsucc : contains travisSuccessTermSet b.State = false := by
    rcases h1 with h | h | h <;> rw [h] <;> decide
  rw [Execute_resuming_found j w n b htok hn hpre hb hdone]
  constructor
  · simp [hsucc, failureReports_append, failureReports_queries, failureReports, failureOf]
  · simp [hsucc, successReports_append, successReports_queries, successReports]

theorem Execute_resuming_failure_witness :
    failureReports (Execute resumingJob failingWorld) =
        [{ JobId := some "job-1",
           FailureDetails := some
             { ExternalExecutionId := some "42",
               Message := some "Travis build failed.",
               Type_ := some FailureTypeJobFailed } }] ∧
      successReports (Execute resumingJob failingWorld) = [] :=
  Execute_resuming_failure resumingJob failingWorld 2 ⟨"42", "passed", "failed"⟩
    (by decide) (by decide)
    (fun i hi c hc => by
      have hi2 : i = 0 ∨ i = 1 := by omega
      rcases hi2 with rfl | rfl
      · simp [statusAt, failingWorld] at hc
      · have : c = ⟨"42", "passed", "started"⟩ := by
          simpa [statusAt, failingWorld] using hc.symm
        subst this
        decide)
    (by simp [statusAt, failingWorld]) (by decide)

/-- C3. New path: for a job with an empty continuation token whose submission succeeds
with request id `r`, when the first successful status query delivered before the
deadline (query `n`, the earlier ones being query errors) returns a snapshot `b` of any
state, the run is the submission, the `n + 1` queries for `r` and then one success
report carrying the job id, the continuation token `r` and the build id of `b` as
external execution id; it sends exactly that one success report and no failure
report. -/
theorem Execute_new_in_progress (j : Job) (w : World) (r : String) (n : Nat) (b : build)
    (htok : j.continuationToken = "") (htrig : w.trigger = .ok r)
    (hn : n < ticksBeforeDeadline w)
    (hpre : ∀ i, i < n → ∀ c, statusAt w i ≠ .ok c)
    (hb : statusAt w n = .ok b) :
    Execute j w =
        Event.triggerBuild :: List.replicate (n + 1) (Event.getBuildStatus r) ++
          [Event.PutJobSuccessResult
            { JobId := some j.awsJobID, ContinuationToken := some r,
              ExecutionDetails := some { ExternalExecutionId := some b.ID } }] ∧
      successReports (Execute j w) =
        [{ JobId := some j.awsJobID, ContinuationToken := some r,
           ExecutionDetails := some { ExternalExecutionId := some b.ID } }] ∧
      failureReports (Execute j w) = [] ∧
      statusQueries (Execute j w) = List.replicate (n + 1) r := by
  rw [Execute_new_found j w r n b htok htrig hn hpre hb]
  refine ⟨rfl, ?_, ?_, ?_⟩
  · rw [List.cons_append, ← List.singleton_append, successReports_append,
      successReports_append, successReports_queries]
    simp [successReports, inProgressSuccess]
  · rw [List.cons_append, ← List.singleton_append, failureReports_append,
      failureReports_append, failureReports_queries]
    simp [failureReports]
  · rw [List.cons_append, ← List.singleton_append, statusQueries_append,
      statusQueries_append, statusQueries_queries]
    simp [statusQueries]

theorem Execute_new_in_progress_witness :
    Execute newJob passingWorld =
        Event.triggerBuild :: List.replicate (0 + 1) (Event.getBuildStatus "271828") ++
          [Event.PutJobSuccessResult
            { JobId := some "job-1", ContinuationToken := some "271828",
              ExecutionDetails := some { ExternalExecutionId := some "42" } }] ∧
      successReports (Execute newJob passingWorld) =
        [{ JobId := some "job-1", ContinuationToken := some "271828",
           ExecutionDetails := some { ExternalExecutionId := some "42" } }] ∧
      failureReports (Execute newJob passingWorld) = [] ∧
      statusQueries (Execute newJob passingWorld) = List.replicate (0 + 1) "271828" :=
  Execute_new_in_progress newJob passingWorld "271828" 0 ⟨"42", "passed", "started"⟩
    rfl rfl (by decide) (fun i hi => absurd hi (Nat.not_lt_zero i))
    (by simp [statusAt, passingWorld])

/-- C6. Timeout sends no report: for a job with a non-empty continuation token, when no
query result handled before the 40-minute deadline is a snapshot with a terminal state,
`pollForResult` ends with the timeout error and the run sends neither a success nor a
failure report. No status query is issued after the deadline: in the poll in time, for
every world and however long the goroutine is left to live, every status query is
triggered by a tick at or before second 2400, and once the clock has reached the
deadline the ticker is stopped. On a world on schedule the poll in time returns the
timeout error too, and its queries are those of the ticks at 30, 60, ..., 2400 seconds
(the last one at the deadline itself, its answer never looked at), which are the trace
of the run. -/
theorem Execute_timeout_no_report (j : Job) (w : World)
    (htok : j.continuationToken ≠ "")
    (hpre : ∀ i, i < ticksBeforeDeadline w →
      ∀ c, statusAt w i = .ok c → contains travisDoneTermSet c.State = false) :
    (pollForResult w j.continuationToken (fun b => contains travisDoneTermSet b.State)).1 =
        .error "timed out waiting for build result" ∧
      successReports (Execute j w) = [] ∧ failureReports (Execute j w) = [] ∧
      (∀ n,
        (∀ q ∈ (runPoll w j.continuationToken
            (fun b => contains travisDoneTermSet b.State) n).sent,
          q.1 ≤ pollTimeoutSeconds) ∧
        (pollTimeoutSeconds ≤ pollTickSeconds * n →
          (runPoll w j.continuationToken
            (fun b => contains travisDoneTermSet b.State) n).stopped = true)) ∧
      (80 ≤ w.ticks → 79 ≤ w.delivered → ∀ n, pollTimeoutSeconds ≤ pollTickSeconds * n →
        (runPoll w j.continuationToken
            (fun b => contains travisDoneTermSet b.State) n).returned =
          some (.error "timed out waiting for build result") ∧
        (runPoll w j.continuationToken
            (fun b => contains travisDoneTermSet b.State) n).sent =
          tickTimes j.continuationToken 80 ∧
        (runPoll w j.continuationToken
            (fun b => contains travisDoneTermSet b.State) n).sent.map
          (fun q => Event.getBuildStatus q.2) = Execute j w) := by
  have hpoll := pollForResult_timeout w j.continuationToken doneCondition
    (fun i hi => skipped_done _ (hpre i hi))
  have hclock : ∀ n, pollTimeoutSeconds ≤ pollTickSeconds * n → 80 ≤ n := by
    intro n hn
    unfold pollTimeoutSeconds pollTickSeconds at hn
    omega
  rw [Execute_resuming_timeout j w htok hpre]
  refine ⟨congrArg Prod.fst hpoll, successReports_queries _ _, failureReports_queries _ _,
    ?_, ?_⟩
  · intro n
    obtain ⟨h1, h2, h3⟩ := runPoll_inv w j.continuationToken doneCondition n
    exact ⟨h3, fun hn => h1 (h2 (hclock n hn))⟩
  · intro hr1 hr2 n hn
    have hfired : firedTicks w = 80 := by
      unfold firedTicks pollTimeoutSeconds pollTickSeconds
      omega
    have htbd : ticksBeforeDeadline w = min w.delivered 80 := by
      unfold ticksBeforeDeadline
      rw [hfired]
    obtain ⟨e1, e2, e3⟩ := runPoll_timeout w j.continuationToken doneCondition
      (fun i hi => skipped_done _ (hpre i (by rw [htbd]; omega)))
      (fun hd => skipped_done _ (hpre 79 (by rw [htbd]; omega)))
    have hst := runPoll_stable w j.continuationToken doneCondition 80 e2
      (by rw [e1]; rfl) n (hclock n hn)
    have hst2 : runPoll w j.continuationToken
        (fun b => contains travisDoneTermSet b.State) n =
        runPoll w j.continuationToken doneCondition 80 := hst
    rw [hst2, e1, e3, tickTimes_events, hfired]
    exact ⟨rfl, rfl, rfl⟩

theorem Execute_timeout_no_report_witness :
    (pollForResult stuckWorld "271828" (fun b => contains travisDoneTermSet b.State)).1 =
        .error "timed out waiting for build result" ∧
      successReports (Execute resumingJob stuckWorld) = [] ∧
      failureReports (Execute resumingJob stuckWorld) = [] ∧
      (∀ q ∈ (runPoll stuckWorld "271828"
          (fun b => contains travisDoneTermSet b.State) 100).sent,
        q.1 ≤ pollTimeoutSeconds) ∧
      (runPoll stuckWorld "271828"
        (fun b => contains travisDoneTermSet b.State) 100).stopped = true ∧
      (runPoll stuckWorld "271828"
        (fun b => contains travisDoneTermSet b.State) 100).sent = tickTimes "271828" 80 ∧
      (tickTimes "271828" 80).getLast? = some (2400, "271828") :=
  have h := Execute_timeout_no_report resumingJob stuckWorld (by decide)
    (fun i _ c hc => by
      have : c = ⟨"42", "passed", "started"⟩ := by
        simpa [statusAt, stuckWorld] using hc.symm
      subst this
      decide)
  ⟨h.1, h.2.1, h.2.2.1, (h.2.2.2.1 100).1, (h.2.2.2.1 100).2 (by decide),
    (h.2.2.2.2 (by decide) (by decide) 100 (by decide)).2.1, by decide⟩

/-- C8. Submission failure is silent: for a job with an empty continuation token whose
build submission returns an error, the run consists of the submission alone: it issues
no status query and sends neither a success nor a failure report. -/
theorem Execute_submission_failure (j : Job) (w : World) (e : String)
    (htok : j.continuationToken = "") (htrig : w.trigger = .error e) :
    Execute j w = [Event.triggerBuild] ∧ statusQueries (Execute j w) = [] ∧
      successReports (Execute j w) = [] ∧ failureReports (Execute j w) = [] := by
  have h : Execute j w = [Event.triggerBuild] := by
    rw [Execute_new j w htok, htrig]
  rw [h]
  exact ⟨rfl, rfl, rfl, rfl⟩

theorem Execute_submission_failure_witness :
    Execute newJob noSubmitWorld = [Event.triggerBuild] ∧
      statusQueries (Execute newJob noSubmitWorld) = [] ∧
      successReports (Execute newJob noSubmitWorld) = [] ∧
      failureReports (Execute newJob noSubmitWorld) = [] :=
  Execute_submission_failure newJob noSubmitWorld "connection refused" rfl rfl

/-- C9. The three classification tables are consistent: created, received, started and
passed are success-compatible; failed, errored and canceled are failure and terminal;
passed is terminal; every failure state is terminal; every terminal state is
success-compatible or failure; no state is both success-compatible and failure. -/
theorem classification_tables_consistent :
    (contains travisSuccessTermSet "created" = true ∧
      contains travisSuccessTermSet "received" = true ∧
      contains travisSuccessTermSet "started" = true ∧
      contains travisSuccessTermSet "passed" = true) ∧
    (contains travisFailureTermSet "failed" = true ∧
      contains travisFailureTermSet "errored" = true ∧
      contains travisFailureTermSet "canceled" = true) ∧
    (contains travisDoneTermSet "failed" = true ∧
      contains travisDoneTermSet "errored" = true ∧
      contains travisDoneTermSet "canceled" = true) ∧
    contains travisDoneTermSet "passed" = true ∧
    (∀ s : String, contains travisFailureTermSet s = true →
      contains travisDoneTermSet s = true) ∧
    (∀ s : String, contains travisDoneTermSet s = true →
      contains travisSuccessTermSet s = true ∨ contains travisFailureTermSet s = true) ∧
    (∀ s : String, ¬ (contains travisSuccessTermSet s = true ∧
      contains travisFailureTermSet s = true)) := by
  refine ⟨by decide, by decide, by decide, by decide, ?_, ?_, ?_⟩
  · intro s hs
    have h := (contains_iff _ _).1 hs
    simp only [travisFailureTermSet, List.mem_cons, List.mem_singleton, List.mem_nil_iff,
      or_false] at h
    rcases h with h | h | h <;> rw [h] <;> decide
  · intro s hs
    have h := (contains_iff _ _).1 hs
    simp only [travisDoneTermSet, List.mem_cons, List.mem_singleton, List.mem_nil_iff,
      or_false] at h
    rcases h with h | h | h | h <;> rw [h] <;> decide
  · rintro s ⟨h1, h2⟩
    have h := (contains_iff _ _).1 h1
    simp only [travisSuccessTermSet, List.mem_cons, List.mem_singleton, List.mem_nil_iff,
      or_false] at h
    rcases h with h | h | h | h <;> rw [h] at h2 <;> exact absurd h2 (by decide)

/-- C10. `pollForResult` skips query errors and returns the first satisfying snapshot:
for every end condition `f`, a query error or a snapshot for which `f` is false does
not end the poll (the loop issues the query and goes on with the next tick); when query
`n`, delivered before the deadline, is the first whose result is a snapshot satisfying `f`,
`pollForResult` returns that snapshot without error after `n + 1` queries; and five
query errors followed by a "passed" snapshot make a resuming run send exactly one
success report and no failure report. -/
theorem pollForResult_first_satisfying (w : World) (rid : String) (f : build → Bool) :
    (∀ fuel k, skipped f (statusAt w k) = true →
      pollLoop w rid f (fuel + 1) k =
        ((pollLoop w rid f fuel (k + 1)).1,
          Event.getBuildStatus rid :: (pollLoop w rid f fuel (k + 1)).2)) ∧
    (∀ n b, n < ticksBeforeDeadline w →
      (∀ i, i < n → skipped f (statusAt w i) = true) →
      statusAt w n = .ok b → f b = true →
      pollForResult w rid f =
        (.ok b, List.replicate (n + 1) (Event.getBuildStatus rid))) ∧
    (∀ (j : Job) (b : build), j.continuationToken ≠ "" → 5 < ticksBeforeDeadline w →
      (∀ i, i < 5 → ∃ e, statusAt w i = .error e) →
      statusAt w 5 = .ok b → b.State = "passed" →
      successReports (Execute j w) = [{ JobId := some j.awsJobID }] ∧
        failureReports (Execute j w) = []) := by
  refine ⟨fun fuel k h => pollLoop_skip w rid f fuel k h,
    fun n b hn hpre hb hf => pollForResult_found w rid f n b hn hpre hb hf, ?_⟩
  intro j b htok hn hpre hb hst
  have hdone : contains travisDoneTermSet b.State = true := by rw [hst]; decide
  have hsucc : contains travisSuccessTermSet b.State = true := by rw [hst]; decide
  rw [Execute_resuming_found j w 5 b htok hn
    (fun i hi c hc => by obtain ⟨e, he⟩ := hpre i hi; rw [he] at hc; cases hc) hb hdone]
  constructor
  · simp [hsucc, successReports_append, successReports_queries, successReports, finalSuccess]
  · simp [hsucc, failureReports_append, failureReports_queries, failureReports]

theorem pollForResult_first_satisfying_witness :
    successReports (Execute resumingJob fiveErrorsWorld) = [{ JobId := some "job-1" }] ∧
      failureReports (Execute resumingJob fiveErrorsWorld) = [] :=
  (pollForResult_first_satisfying fiveErrorsWorld "271828"
      (fun b => contains travisDoneTermSet b.State)).2.2
    resumingJob ⟨"42", "failed", "passed"⟩ (by decide) (by decide)
    (fun i hi => ⟨"connection reset", by simp [statusAt, fiveErrorsWorld, hi]⟩)
    (by simp [statusAt, fiveErrorsWorld]) rfl

/-- C4, the run at a failing input: with every status query failing, `pollForResult`
ends with the timeout error on the resuming path and on the new path, and neither run
reaches the fatal log call. -/
theorem Execute_poll_timeout_not_fatal :
    (pollForResult deadWorld "271828" (fun b => contains travisDoneTermSet b.State)).1 =
        .error "timed out waiting for build result" ∧
      Execute resumingJob deadWorld = List.replicate 80 (Event.getBuildStatus "271828") ∧
      fatalCalls (Execute resumingJob deadWorld) = [] ∧
      (pollForResult deadWorld "271828" (fun _ => true)).1 =
        .error "timed out waiting for build result" ∧
      Execute newJob deadWorld =
        Event.triggerBuild :: List.replicate 80 (Event.getBuildStatus "271828") ∧
      fatalCalls (Execute newJob deadWorld) = [] := by
  have h1 : ∀ i, i < ticksBeforeDeadline deadWorld →
      ∀ c, statusAt deadWorld i = .ok c → contains travisDoneTermSet c.State = false := by
    intro i _ c hc
    simp [statusAt, deadWorld] at hc
  have h2 : ∀ i, i < ticksBeforeDeadline deadWorld → ∀ c, statusAt deadWorld i ≠ .ok c := by
    intro i _ c hc
    simp [statusAt, deadWorld] at hc
  refine ⟨?_, ?_, Execute_never_fatal _ _, ?_, ?_, Execute_never_fatal _ _⟩
  · exact congrArg Prod.fst (pollForResult_timeout deadWorld "271828" doneCondition
      (fun i hi => skipped_done _ (h1 i hi)))
  · exact Execute_resuming_timeout resumingJob deadWorld (by decide) h1
  · exact congrArg Prod.fst (pollForResult_timeout deadWorld "271828" anyCondition
      (fun i hi => skipped_any _ (h2 i hi)))
  · exact Execute_new_timeout newJob deadWorld "271828" rfl rfl h2

/-- C5, the run at a failing input: the pipeline service answers the report with an
error, on the resuming path for a success report and for a failure report and on the
new path for the in-progress report, and no run reaches the fatal log call. -/
theorem Execute_report_error_not_fatal :
    (reportSuccess resumingJob rejectingWorld "271828" "42" false).1 =
        some "AccessDeniedException" ∧
      Execute resumingJob rejectingWorld =
        [.getBuildStatus "271828", .PutJobSuccessResult { JobId := some "job-1" }] ∧
      (reportFailure resumingJob rejectingFailedWorld "42").1 =
        some "AccessDeniedException" ∧
      Execute resumingJob rejectingFailedWorld =
        [.getBuildStatus "271828", .PutJobFailureResult (failureOf resumingJob "42")] ∧
      (reportSuccess newJob rejectingWorld "271828" "42" true).1 =
        some "AccessDeniedException" ∧
      Execute newJob rejectingWorld =
        [.triggerBuild, .getBuildStatus "271828",
          .PutJobSuccessResult (inProgressSuccess newJob "271828" "42")] := by
  decide

/-- C7, as stated, fails: the resuming job observes at its first query a snapshot of
build "42" whose state "queued" is not success-compatible; polling goes on, the next
snapshot has state "passed", and the run ends with a success report and no failure
report. -/
theorem Execute_unknown_state_no_failure_report :
    resumingJob.continuationToken ≠ "" ∧
      contains travisSuccessTermSet "queued" = false ∧
      0 < ticksBeforeDeadline queuedWorld ∧
      statusAt queuedWorld 0 = .ok ⟨"42", "passed", "queued"⟩ ∧
      Execute resumingJob queuedWorld =
        [.getBuildStatus "271828", .getBuildStatus "271828",
          .PutJobSuccessResult { JobId := some "job-1" }] ∧
      failureReports (Execute resumingJob queuedWorld) = [] := by
  refine ⟨by decide, by decide, by decide, rfl, by decide, by decide⟩

/-- C7, amended. For a job with a non-empty continuation token and a snapshot `b`, the
result of query `n` delivered before the deadline, whose state is not success-compatible
and before which no terminal snapshot was observed: if the state of `b` is terminal, the
run sends exactly one failure report, with the build id of `b` as external execution id,
and no success report; if it is not terminal, `b` does not end the poll, which goes on
with the next tick. -/
theorem Execute_not_success_compatible (j : Job) (w : World) (n : Nat) (b : build)
    (htok : j.continuationToken ≠ "") (hn : n < ticksBeforeDeadline w)
    (hpre : ∀ i, i < n → ∀ c, statusAt w i = .ok c → contains travisDoneTermSet c.State = false)
    (hb : statusAt w n = .ok b) (hns : contains travisSuccessTermSet b.State = false) :
    (contains travisDoneTermSet b.State = true →
      failureReports (Execute j w) =
          [{ JobId := some j.awsJobID,
             FailureDetails := some
               { ExternalExecutionId := some b.ID,
                 Message := some "Travis build failed.",
                 Type_ := some FailureTypeJobFailed } }] ∧
        successReports (Execute j w) = []) ∧
    (contains travisDoneTermSet b.State = false →
      ∀ fuel,
        pollLoop w j.continuationToken (fun c => contains travisDoneTermSet c.State)
            (fuel + 1) n =
          ((pollLoop w j.continuationToken (fun c => contains travisDoneTermSet c.State)
              fuel (n + 1)).1,
            Event.getBuildStatus j.continuationToken ::
              (pollLoop w j.continuationToken (fun c => contains travisDoneTermSet c.State)
                fuel (n + 1)).2)) := by
  constructor
  · intro hdone
    rw [Execute_resuming_found j w n b htok hn hpre hb hdone]
    constructor
    · simp [hns, failureReports_append, failureReports_queries, failureReports, failureOf]
    · simp [hns, successReports_append, successReports_queries, successReports]
  · intro hnd fuel
    exact pollLoop_skip w j.continuationToken doneCondition fuel n
      (skipped_done _ (fun c hc => by rw [hb] at hc; cases hc; exact hnd))

theorem Execute_not_success_compatible_witness :
    (failureReports (Execute resumingJob erroredWorld) =
        [{ JobId := some "job-1",
           FailureDetails := some
             { ExternalExecutionId := some "42",
               Message := some "Travis build failed.",
               Type_ := some FailureTypeJobFailed } }] ∧
      successReports (Execute resumingJob erroredWorld) = []) ∧
    (pollLoop queuedWorld "271828" (fun c => contains travisDoneTermSet c.State) (78 + 1) 0 =
      ((pollLoop queuedWorld "271828" (fun c => contains travisDoneTermSet c.State) 78 1).1,
        Event.getBuildStatus "271828" ::
          (pollLoop queuedWorld "271828" (fun c => contains travisDoneTermSet c.State)
            78 1).2)) :=
  ⟨(Execute_not_success_compatible resumingJob erroredWorld 1 ⟨"42", "passed", "errored"⟩
    (by decide) (by decide)
    (fun i hi c hc => by
      obtain rfl : i = 0 := by omega
      have : c = ⟨"42", "passed", "started"⟩ := by
        simpa [statusAt, erroredWorld] using hc.symm
      subst this
      decide)
    (by simp [statusAt, erroredWorld]) (by decide)).1 (by decide),
   (Execute_not_success_compatible resumingJob queuedWorld 0 ⟨"42", "passed", "queued"⟩
    (by decide) (by decide) (fun i hi => absurd hi (Nat.not_lt_zero i))
    rfl (by decide)).2 (by decide) 78⟩

end Travis
